import Mathlib

/-!
Verification of the two instructional Rust programs of this repository,
src/cheat-sheet.rs and src/types-cheat-sheet.rs, against their
natural-language specification.  The programs are shallowly embedded:
each pure helper function becomes a Lean function of the same name, and
the standard-library pieces they use (string byte slicing, vector
indexing, integer parsing, hash maps and hash sets) are modelled
explicitly.  cheat-sheet.rs compiles and runs, so its observable
behaviour - the sequence of lines main writes to standard output - is a
Lean function returning Option (List String), where none models a
panic; because the iteration order of a Rust HashMap is not fixed (the
hasher is randomly seeded per process), that function takes the
enumeration order of the map as a parameter, constrained to be a
permutation of the map contents.  types-cheat-sheet.rs is rejected by
the borrow checker (E0502: the exclusive borrow of n at line 49 is
taken while the shared borrow r1, last used at line 51, is live) and so
has no runs; no run function is defined for it, only its standalone
well-formed items (the Msg enum with describe, the set insertions) and
a model of the borrow conflict that rejects its main.
-/

namespace RustModel

/-- Rendering of a vector of machine integers by the Debug formatter,
as in the Rust line that prints nums with the format specifier. -/
def vecDebug (l : List Int) : String :=
  "[" ++ String.intercalate ", " (l.map toString) ++ "]"

/-- Debug rendering of a string: surrounded by double quotes. -/
def strDebug (s : String) : String := "\"" ++ s ++ "\""

/-- Debug rendering of an optional machine integer, as Some(n) or None. -/
def optIntDebug : Option Int → String
  | some n => "Some(" ++ toString n ++ ")"
  | none => "None"

/-- Debug rendering of one key-value entry of a map from strings to
integers. -/
def mapEntryDebug (p : String × Int) : String :=
  strDebug p.1 ++ ": " ++ toString p.2

/-- Debug rendering of a map from strings to integers, given the order
in which the map enumerates its entries. -/
def mapDebug (entries : List (String × Int)) : String :=
  "\x7b" ++ String.intercalate ", " (entries.map mapEntryDebug) ++ "\x7d"

/-- Model of HashMap insert for maps from strings to integers: the
contents are an association list; insert replaces any existing binding
of the key. -/
def hmInsert (m : List (String × Int)) (k : String) (v : Int) :
    List (String × Int) :=
  (k, v) :: m.filter (fun p => p.1 != k)

/-- Model of HashMap get: the first binding of the key, if any. -/
def hmLookup (m : List (String × Int)) (k : String) : Option Int :=
  List.lookup k m

/-- Model of the entry-or-insert idiom: insert the default value only
when the key is absent. -/
def hmEntryOrInsert (m : List (String × Int)) (k : String) (v : Int) :
    List (String × Int) :=
  if (hmLookup m k).isSome then m else hmInsert m k v

/-- Model of HashSet insert for sets of integers: inserting a value that
is already present leaves the set unchanged. -/
def hsInsert (s : List Int) (x : Int) : List Int :=
  if x ∈ s then s else s ++ [x]

/-- Model of vector indexing, nums at position i: in Rust the operation
panics when out of bounds, modelled by none. -/
def vecIndex (l : List Int) (i : Nat) : Option Int := l.get? i

/-- Slice the characters of a string between UTF-8 byte positions i and
j (i le j assumed by the caller): none when either position is out of
bounds or not on a character boundary, as Rust string slicing panics
there. -/
def sliceChars : List Char → Nat → Nat → Option (List Char)
  | _, 0, 0 => some []
  | [], _, _ => none
  | c :: cs, 0, j =>
    if j < c.utf8Size then none
    else (sliceChars cs 0 (j - c.utf8Size)).map (fun l => c :: l)
  | c :: cs, i, j =>
    if i < c.utf8Size then none
    else sliceChars cs (i - c.utf8Size) (j - c.utf8Size)

/-- Model of the Rust byte-range string slice from i to j: panics
(none) when the range is inverted, out of bounds, or cuts a character. -/
def byteSlice (s : String) (i j : Nat) : Option String :=
  if i ≤ j then (sliceChars s.data i j).map (fun l => String.mk l) else none

end RustModel

namespace CheatSheet

open RustModel

/-- The error type of integer parsing, after std::num::ParseIntError
with its four reachable kinds for a signed target type. -/
inductive ParseIntError where
  | empty
  | invalidDigit
  | posOverflow
  | negOverflow
deriving DecidableEq

/-- The Display text of each parse error kind, as the standard library
prints it. -/
def parseErrDisplay : ParseIntError → String
  | .empty => "cannot parse integer from empty string"
  | .invalidDigit => "invalid digit found in string"
  | .posOverflow => "number too large to fit in target type"
  | .negOverflow => "number too small to fit in target type"

/-- The numeric value of an ASCII digit character. -/
def digVal (c : Char) : Nat := c.toNat - ('0').toNat

/-- The digit-accumulation loop of the standard integer parser: each
character must be an ASCII decimal digit, and the accumulated magnitude
must never exceed the bound imposed by the target width (the bound for
a leading minus sign is one larger than for a plus sign, matching the
asymmetric two's-complement range); exceeding it yields the given
overflow error, exactly as the checked arithmetic of core's
from_str_radix does. -/
def parseDigits (bound : Nat) (oerr : ParseIntError) :
    List Char → Nat → Except ParseIntError Nat
  | [], acc => .ok acc
  | c :: cs, acc =>
    if c.isDigit then
      if bound < 10 * acc + digVal c then .error oerr
      else parseDigits bound oerr cs (10 * acc + digVal c)
    else .error .invalidDigit

/-- The largest magnitude a non-negative parsed i32 may take. -/
def i32Max : Nat := 2 ^ 31 - 1

/-- The largest magnitude a negative parsed i32 may take. -/
def i32NegMag : Nat := 2 ^ 31

/-- Trade the parsed magnitude for its signed integer value, keeping
any error. -/
def okInt (f : Nat → Int) : Except ParseIntError Nat → Except ParseIntError Int
  | .ok v => .ok (f v)
  | .error e => .error e

/-- Integer parsing on the character list of the input: an optional
sign followed by at least one decimal digit, with the i32 range
enforced, after core's from_str implementation for i32 at radix 10. -/
def parseChars : List Char → Except ParseIntError Int
  | [] => .error .empty
  | c :: cs =>
    if c = '+' then
      if cs.isEmpty then .error .invalidDigit
      else okInt (fun v => (v : Int)) (parseDigits i32Max .posOverflow cs 0)
    else if c = '-' then
      if cs.isEmpty then .error .invalidDigit
      else okInt (fun v => -(v : Int)) (parseDigits i32NegMag .negOverflow cs 0)
    else okInt (fun v => (v : Int)) (parseDigits i32Max .posOverflow (c :: cs) 0)

/-- The function parse_i32 of cheat-sheet.rs: s.parse to i32. -/
def parse_i32 (s : String) : Except ParseIntError Int := parseChars s.data

/-- The function add of cheat-sheet.rs. -/
def add (a b : Int) : Int := a + b

/-- The function maybe_pos of cheat-sheet.rs. -/
def maybe_pos (n : Int) : Option Int := if n > 0 then some n else none

/-- The body of wrapper_using_q generalized over its input string: the
question-mark operator desugars to a match that returns the error of
the inner parse unchanged, and on success adds one. -/
def wrapperQ (s : String) : Except ParseIntError Int :=
  match parse_i32 s with
  | .error e => .error e
  | .ok n => .ok (n + 1)

/-- The function wrapper_using_q of cheat-sheet.rs: its inner parse is
applied to the literal string 77. -/
def wrapper_using_q : Except ParseIntError Int := wrapperQ "77"

/-- The generic identity function id of cheat-sheet.rs. -/
def id {α : Type} (x : α) : α := x

/-- The Speak trait implementation for i32 in cheat-sheet.rs. -/
def speakI32 (n : Int) : String := "num " ++ toString n

/-- The function pick_longer of cheat-sheet.rs; len() of a Rust string
slice is its UTF-8 byte length. -/
def pick_longer (a b : String) : String :=
  if a.utf8ByteSize > b.utf8ByteSize then a else b

/-- The struct User of cheat-sheet.rs: a name and an age of unsigned
32-bit width. -/
structure User where
  name : String
  age : Nat
deriving DecidableEq

/-- The associated function User::new. -/
def User.new (name : String) (age : Nat) : User := ⟨name, age⟩

/-- The method User::birthday: age += 1 on a u32, which panics on
overflow under the debug profile the cheat sheet runs with (cargo run);
the panic is modelled by none, so a successful call requires the
incremented age to stay below 2 to the 32. -/
def User.birthday (u : User) : Option User :=
  if u.age + 1 < 2 ^ 32 then some { u with age := u.age + 1 } else none

/-- The method User::greet. -/
def User.greet (u : User) : String :=
  "hello " ++ u.name ++ ", age " ++ toString u.age

/-- The Debug rendering of a User value, as derived in cheat-sheet.rs. -/
def userDebug (u : User) : String :=
  "User \x7b name: " ++ strDebug u.name ++ ", age: " ++ toString u.age ++ " \x7d"

/-- The enum Msg of cheat-sheet.rs. -/
inductive Msg where
  | quit
  | write (s : String)
  | move (x y : Int)

/-- The function handle of cheat-sheet.rs, returning the line it
prints. -/
def handle : Msg → String
  | .quit => "quit"
  | .write s => "write: " ++ s
  | .move x y => "move: " ++ toString x ++ "," ++ toString y

/-- The final contents of the HashMap m built in main: insert the pair
a maps-to 1, then entry b or-insert 2. -/
def cheatMap : List (String × Int) :=
  hmEntryOrInsert (hmInsert [] "a" 1) "b" 2

end CheatSheet

namespace CheatSheet

open RustModel

/-- The observable behaviour of cheat-sheet.rs: the sequence of lines
main writes to standard output, given the order ord in which the
HashMap enumerates its entries on the line that prints it.  Every
fallible operation (the byte-range string slice, the vector index, the
age increment) is threaded through Option, so none models a panic. -/
def cheatRun (ord : List (String × Int)) : Option (List String) := do
  let x : Int := 5
  let y : Int := 10 + 1
  let max : Int := 99
  let big : Nat := 1000000
  let line1 := "x=" ++ toString x ++ ", y=" ++ toString y ++ ", MAX="
    ++ toString max ++ ", big=" ++ toString big
  let line2 := "add(2,3)=" ++ toString (add 2 3)
  let n : Int := 7
  let line3 := "n is " ++ (if n > 5 then "big" else "small")
  let forLines := (List.range 3).map (fun i => "for i=" ++ toString i)
  let whileLines := (List.range 2).map (fun i => "while i=" ++ toString i)
  let loops : Int := 1 + 1
  let line9 := "looped " ++ toString loops ++ " times"
  let s := "hello"
  let line10 := "borrowed: " ++ s
  let line11 := "still have s: " ++ s
  let t := "yo" ++ "!"
  let line12 := "after borrow_mut: " ++ t
  let a : Int := 123
  let b := a
  let line13 := "a=" ++ toString a ++ ", b=" ++ toString b
  let v2 : List Int := [1, 2]
  let line14 := "v2 moved ok: " ++ vecDebug v2
  let name := ("" ++ "phntm").push 'z'
  let greet := "hi, " ++ name
  let line15 := greet
  let line16 := "borrowed str slice"
  let ascii := "hello"
  let slice ← byteSlice ascii 0 2
  let line17 := "slice: " ++ slice
  let nums : List Int := [1, 2, 3] ++ [4]
  let first ← vecIndex nums 0
  let maybeFirst := nums.get? 0
  let line18 := "nums=" ++ vecDebug nums ++ ", first=" ++ toString first
    ++ ", maybe_first=" ++ optIntDebug maybeFirst
  let line19 := String.join (nums.map (fun k => toString k ++ " "))
  let nums2 := nums.map (fun k => k + 10)
  let line20 := "nums after +10: " ++ vecDebug nums2
  let aVal := hmLookup cheatMap "a"
  let line21 := "map=" ++ mapDebug ord ++ ", a=" ++ optIntDebug aVal
  let user ← (User.new "alex" 20).birthday
  let line22 := "user: " ++ userDebug user ++ ", greet=" ++ user.greet
  let line23 := handle (Msg.write "hey")
  let line24 := handle (Msg.move 3 4)
  let line25 := handle Msg.quit
  let line26 := "maybe_pos(-1)=" ++ optIntDebug (maybe_pos (-1))
  let line27 := match parse_i32 "123" with
    | .ok k => "parsed: " ++ toString k
    | .error e => "parse error: " ++ parseErrDisplay e
  let line28 := match wrapper_using_q with
    | .ok k => "wrapper_using_q ok: " ++ toString k
    | .error e => "wrapper_using_q err: " ++ parseErrDisplay e
  let line29 := "id(9)=" ++ toString (id (9 : Int))
  let line30 := "id(\"hi\")=" ++ id "hi"
  let spk : Int := 42
  let line31 := "Speak: " ++ speakI32 spk
  let line32 := "longer: " ++ pick_longer "short" "looooong"
  let p : Int := 1
  let q : Int := 2
  let line33 := "tuple destructure: p=" ++ toString p ++ ", q=" ++ toString q
  let ifLetLines := match some (5 : Int) with
    | some k => ["if let got " ++ toString k]
    | none => []
  let m5 : Int := 5
  let line35 :=
    if 1 ≤ m5 ∧ m5 ≤ 3 then "1..=3"
    else if m5 = 4 ∨ m5 = 5 then "4 or 5"
    else "other"
  pure ([line1, line2, line3] ++ forLines ++ whileLines
    ++ [line9, line10, line11, line12, line13, line14, line15, line16,
        line17, line18, line19, line20, line21, line22, line23, line24,
        line25, line26, line27, line28, line29, line30, line31, line32,
        line33]
    ++ ifLetLines ++ [line35])

end CheatSheet

namespace TypesCheat

open RustModel

/-- The enum Msg of types-cheat-sheet.rs. -/
inductive Msg where
  | quit
  | write (s : String)
  | move (x y : Int)

/-- The function describe of types-cheat-sheet.rs: the name of the
variant, ignoring any payload. -/
def describe : Msg → String
  | .quit => "quit"
  | .write _ => "write"
  | .move _ _ => "move"

/-- The contents the HashSet set of types-cheat-sheet.rs would hold:
the value 10 inserted twice (the snippet at lines 110 to 112 is locally
well-formed; the claim about it concerns insertion semantics only). -/
def typesSet : List Int := hsInsert (hsInsert [] 10) 10

/-- One borrow of a place in main of types-cheat-sheet.rs: whether it
is exclusive, the line it is created at, and the line of its last use
(its non-lexical lifetime extends to that last use). -/
structure BorrowEvent where
  place : String
  exclusive : Bool
  startLine : Nat
  lastUseLine : Nat

/-- The shared borrow r1 of n, created at line 48 of
types-cheat-sheet.rs and last used in the println of line 51. -/
def r1Borrow : BorrowEvent := ⟨"n", false, 48, 51⟩

/-- The exclusive borrow r2 of n, created at line 49 of
types-cheat-sheet.rs and last used at line 50. -/
def r2Borrow : BorrowEvent := ⟨"n", true, 49, 50⟩

/-- The E0502 condition of the borrow checker on two borrows: an
exclusive borrow of a place is created while a shared borrow of the
same place is live.  A program containing such a pair is rejected at
compile time and has no executions. -/
def e0502 (shr exc : BorrowEvent) : Bool :=
  shr.place == exc.place && !shr.exclusive && exc.exclusive &&
  decide (shr.startLine ≤ exc.startLine) &&
  decide (exc.startLine ≤ shr.lastUseLine)

end TypesCheat

/-- A list that is a permutation of a two-element list is one of its
two arrangements. -/
lemma perm_two {α : Type} {x y : α} {l : List α}
    (h : l.Perm [x, y]) : l = [x, y] ∨ l = [y, x] := by
  have hlen : l.length = 2 := by simpa using h.length_eq
  cases l with
  | nil => simp at hlen
  | cons a l1 =>
    cases l1 with
    | nil => simp at hlen
    | cons b l2 =>
      cases l2 with
      | cons c l3 => simp at hlen
      | nil =>
        have ha : a = x ∨ a = y := by
          have hm : a ∈ [x, y] := h.mem_iff.mp (by simp)
          simpa using hm
        rcases ha with rfl | rfl
        · left
          have hb : b = y := by
            have h2 := h.cons_inv
            simpa [List.perm_singleton] using h2
          rw [hb]
        · right
          have h2 : ([a, b] : List α).Perm [a, x] :=
            h.trans (List.Perm.swap a x [])
          have hb : b = x := by
            have h3 := h2.cons_inv
            simpa [List.perm_singleton] using h3
          rw [hb]

/-- Any legitimate enumeration order of the cheat-sheet map yields a
successful run whose output, with the map-printing line masked out, is
that of the canonical order. -/
lemma cheatRun_mask (ord : List (String × Int))
    (h : ord.Perm CheatSheet.cheatMap) :
    (CheatSheet.cheatRun ord).isSome = true ∧
    (CheatSheet.cheatRun ord).map (fun l => l.set 20 "") =
      (CheatSheet.cheatRun CheatSheet.cheatMap).map (fun l => l.set 20 "") := by
  have hmap : CheatSheet.cheatMap = [("b", 2), ("a", 1)] := rfl
  rw [hmap] at h
  rcases perm_two h with rfl | rfl
  · exact ⟨by decide, rfl⟩
  · exact ⟨by decide, by decide⟩

/-- Claim C1 fails as stated: two runs of cheat-sheet.rs may print
different line sequences, because the line that prints the HashMap
depends on the enumeration order of the map, and both orders of its two
entries are legitimate enumerations of the same map. -/
theorem claim_C1_counterexample :
    ([("a", 1), ("b", 2)] : List (String × Int)).Perm CheatSheet.cheatMap ∧
    ([("b", 2), ("a", 1)] : List (String × Int)).Perm CheatSheet.cheatMap ∧
    CheatSheet.cheatRun [("a", 1), ("b", 2)] ≠
      CheatSheet.cheatRun [("b", 2), ("a", 1)] := by
  refine ⟨List.Perm.swap _ _ _, List.Perm.refl _, ?_⟩
  decide

/-- Claim C1 (amended): every run of cheat-sheet.rs - the one program
of the two that compiles and so has runs at all - succeeds, and any two
of its runs print identical line sequences except possibly at the
single line that prints the HashMap (index 20), where the two entries
of the map may be listed in either order.  No determinism statement is
made for types-cheat-sheet.rs, which the borrow checker rejects (E0502
at lines 48 to 51), leaving it without runs. -/
theorem claim_C1_deterministic_up_to_map_line
    (ord1 ord2 : List (String × Int))
    (h1 : ord1.Perm CheatSheet.cheatMap) (h2 : ord2.Perm CheatSheet.cheatMap) :
    (CheatSheet.cheatRun ord1).isSome = true ∧
    (CheatSheet.cheatRun ord1).map (fun l => l.set 20 "") =
      (CheatSheet.cheatRun ord2).map (fun l => l.set 20 "") := by
  obtain ⟨s1, e1⟩ := cheatRun_mask ord1 h1
  obtain ⟨-, e2⟩ := cheatRun_mask ord2 h2
  exact ⟨s1, e1.trans e2.symm⟩

/-- Claim C1 witness: the amended statement instantiated at the
canonical enumeration order. -/
theorem claim_C1_witness :
    (CheatSheet.cheatRun CheatSheet.cheatMap).isSome = true ∧
    (CheatSheet.cheatRun CheatSheet.cheatMap).map (fun l => l.set 20 "") =
      (CheatSheet.cheatRun CheatSheet.cheatMap).map (fun l => l.set 20 "") :=
  claim_C1_deterministic_up_to_map_line _ _ (List.Perm.refl _) (List.Perm.refl _)

/-- Claim C2 fails on the code: the claim asserts a success exit in all
paths of both programs, and cheat-sheet.rs indeed runs panic-free for
every map enumeration order - its byte slice of hello from 0 to 2 is in
bounds and on character boundaries, the index 0 of nums is in bounds,
and parsing 123 succeeds - but types-cheat-sheet.rs has no successful
run at all: the exclusive borrow of n taken at line 49 is created
inside the live range of the shared borrow r1 (created at line 48, last
used in the println at line 51), which is exactly the E0502 condition
on which the borrow checker rejects the file, so cargo run exits in
failure before any execution. -/
theorem claim_C2_borrow_conflict :
    TypesCheat.e0502 TypesCheat.r1Borrow TypesCheat.r2Borrow = true ∧
    (∀ ord : List (String × Int), ord.Perm CheatSheet.cheatMap →
      (CheatSheet.cheatRun ord).isSome = true) ∧
    RustModel.byteSlice "hello" 0 2 = some "he" ∧
    RustModel.vecIndex [1, 2, 3, 4] 0 = some 1 ∧
    CheatSheet.parse_i32 "123" = .ok 123 :=
  ⟨rfl, fun ord h => (cheatRun_mask ord h).1, rfl, rfl, rfl⟩


/-- Claim C4: pick_longer returns whichever string argument has the
greater length (the byte length, as len() measures a Rust string), and
on equal lengths returns the second argument; in particular picking
between short and looooong yields looooong. -/
theorem claim_C4_pick_longer :
    (∀ a b : String,
      (a.utf8ByteSize > b.utf8ByteSize → CheatSheet.pick_longer a b = a) ∧
      (b.utf8ByteSize > a.utf8ByteSize → CheatSheet.pick_longer a b = b) ∧
      (a.utf8ByteSize = b.utf8ByteSize → CheatSheet.pick_longer a b = b)) ∧
    CheatSheet.pick_longer "short" "looooong" = "looooong" := by
  refine ⟨fun a b => ⟨?_, ?_, ?_⟩, rfl⟩
  · intro h; simp [CheatSheet.pick_longer, h]
  · intro h; rw [CheatSheet.pick_longer, if_neg (by omega)]
  · intro h; rw [CheatSheet.pick_longer, if_neg (by omega)]

/-- Claim C5: maybe_pos n is some n exactly when n is positive and none
otherwise; in particular maybe_pos of -1 is none and maybe_pos of 7 is
some 7.  Proved for every integer, hence for every 32-bit one. -/
theorem claim_C5_maybe_pos :
    (∀ n : Int, (CheatSheet.maybe_pos n = some n ↔ 0 < n) ∧
      (n ≤ 0 → CheatSheet.maybe_pos n = none)) ∧
    CheatSheet.maybe_pos (-1) = none ∧ CheatSheet.maybe_pos 7 = some 7 := by
  refine ⟨fun n => ?_, rfl, rfl⟩
  by_cases hn : 0 < n
  · exact ⟨⟨fun _ => hn, fun _ => by simp [CheatSheet.maybe_pos, hn]⟩,
      fun hle => absurd hn (by omega)⟩
  · refine ⟨⟨fun h => ?_, fun h => absurd h hn⟩,
      fun _ => by simp [CheatSheet.maybe_pos, hn]⟩
    simp [CheatSheet.maybe_pos, hn] at h

/-- Claim C6: the question-mark shortcut in wrapper_using_q forwards a
failure of the inner parse to the caller unchanged, and since its
literal input 77 parses successfully, wrapper_using_q returns the
success value 78. -/
theorem claim_C6_wrapper_using_q :
    CheatSheet.wrapper_using_q = Except.ok 78 ∧
    (∀ (s : String) (e : CheatSheet.ParseIntError),
      CheatSheet.parse_i32 s = .error e → CheatSheet.wrapperQ s = .error e) := by
  refine ⟨rfl, fun s e h => ?_⟩
  simp [CheatSheet.wrapperQ, h]

/-- Claim C7 fails as stated: birthday does not increase the age by one
for every User value, because at the largest u32 age the increment
overflows (a panic under the debug profile the cheat sheet is run
with), so no User with the incremented age is produced. -/
theorem claim_C7_counterexample :
    (CheatSheet.User.new "alex" 4294967295).birthday = none ∧
    ¬ ∃ u : CheatSheet.User,
        (CheatSheet.User.new "alex" 4294967295).birthday = some u ∧
        u.age = 4294967295 + 1 ∧ u.name = "alex" := by
  have h : (CheatSheet.User.new "alex" 4294967295).birthday = none := by decide
  refine ⟨h, ?_⟩
  rintro ⟨u, hu, -, -⟩
  rw [h] at hu
  cases hu

/-- Claim C7 (amended): for every User whose incremented age still fits
in the unsigned 32-bit width, birthday increases the age field by
exactly 1 and leaves the name field unchanged. -/
theorem claim_C7_birthday (u : CheatSheet.User) (h : u.age + 1 < 2 ^ 32) :
    ∃ v : CheatSheet.User,
      u.birthday = some v ∧ v.age = u.age + 1 ∧ v.name = u.name := by
  refine ⟨{ u with age := u.age + 1 }, ?_, rfl, rfl⟩
  simp [CheatSheet.User.birthday]
  omega

/-- Claim C7 witness: the amended statement at the User the program
builds, alex aged 20. -/
theorem claim_C7_witness :
    ∃ v : CheatSheet.User,
      (CheatSheet.User.new "alex" 20).birthday = some v ∧
      v.age = (CheatSheet.User.new "alex" 20).age + 1 ∧
      v.name = (CheatSheet.User.new "alex" 20).name :=
  claim_C7_birthday (CheatSheet.User.new "alex" 20) (by decide)

/-- Claim C8: inserting the same integer twice into an initially empty
set leaves its size at 1, and more generally inserting an
already-present value leaves the set unchanged. -/
theorem claim_C8_set_insert_twice :
    (∀ x : Int, (RustModel.hsInsert (RustModel.hsInsert [] x) x).length = 1) ∧
    (∀ (s : List Int) (x : Int), x ∈ s → RustModel.hsInsert s x = s) ∧
    TypesCheat.typesSet.length = 1 := by
  refine ⟨fun x => ?_, fun s x hx => ?_, rfl⟩
  · simp [RustModel.hsInsert]
  · simp [RustModel.hsInsert, hx]

/-- Claim C9: after inserting the pair of a and 1, looking up a yields
some 1 (over any prior map contents); and in the map the program
builds, a lookup of any key other than the two inserted ones yields
none. -/
theorem claim_C9_map_lookup :
    (∀ m : List (String × Int),
      RustModel.hmLookup (RustModel.hmInsert m "a" 1) "a" = some 1) ∧
    RustModel.hmLookup CheatSheet.cheatMap "a" = some 1 ∧
    (∀ k : String, k ≠ "a" → k ≠ "b" →
      RustModel.hmLookup CheatSheet.cheatMap k = none) := by
  refine ⟨fun m => ?_, rfl, fun k ha hb => ?_⟩
  · simp [RustModel.hmLookup, RustModel.hmInsert, List.lookup]
  · have hmap : CheatSheet.cheatMap = [("b", 2), ("a", 1)] := rfl
    rw [hmap]
    have e1 : (k == "b") = false := beq_eq_false_iff_ne.mpr hb
    have e2 : (k == "a") = false := beq_eq_false_iff_ne.mpr ha
    simp [RustModel.hmLookup, List.lookup, e1, e2]

/-- Claim C10: describe returns the name of the Msg variant whatever
the payload is. -/
theorem claim_C10_describe :
    TypesCheat.describe TypesCheat.Msg.quit = "quit" ∧
    (∀ s : String, TypesCheat.describe (TypesCheat.Msg.write s) = "write") ∧
    (∀ x y : Int, TypesCheat.describe (TypesCheat.Msg.move x y) = "move") :=
  ⟨rfl, fun _ => rfl, fun _ _ => rfl⟩

namespace CheatSheet

/-- The running value of the digit-accumulation fold started at acc. -/
def foldAcc (acc : Nat) (ds : List Char) : Nat :=
  ds.foldl (fun a c => 10 * a + digVal c) acc

/-- The numeric value denoted by a string of decimal digits. -/
def digitsVal (ds : List Char) : Nat := foldAcc 0 ds

/-- The integer denoted by a sign (possibly absent) and a digit
string. -/
def litVal (sgn ds : List Char) : Int :=
  if sgn = ['-'] then -(digitsVal ds : Int) else (digitsVal ds : Int)

/-- Specification-side predicate, following the words of the spec: the
string is a valid base-10 integer literal representable in the 32-bit
signed integer width, that is, an optional plus or minus sign followed
by at least one decimal digit, denoting a value between -2 to the 31
and 2 to the 31 minus 1. -/
def validI32Literal (s : String) : Prop :=
  ∃ sgn ds : List Char,
    (sgn = [] ∨ sgn = ['+'] ∨ sgn = ['-']) ∧
    ds ≠ [] ∧ (∀ c ∈ ds, c.isDigit = true) ∧
    s.data = sgn ++ ds ∧
    -(2 ^ 31) ≤ litVal sgn ds ∧ litVal sgn ds ≤ 2 ^ 31 - 1

lemma foldAcc_cons (acc : Nat) (c : Char) (cs : List Char) :
    foldAcc acc (c :: cs) = foldAcc (10 * acc + digVal c) cs := rfl

lemma le_foldAcc (ds : List Char) : ∀ acc : Nat, acc ≤ foldAcc acc ds := by
  induction ds with
  | nil => intro acc; exact Nat.le_refl acc
  | cons c cs ih =>
    intro acc
    rw [foldAcc_cons]
    exact le_trans (by omega) (ih (10 * acc + digVal c))

/-- The digit loop succeeds exactly when every character is a decimal
digit and the accumulated value never exceeds the bound; by
monotonicity of the fold that is equivalent to the final value fitting
under the bound. -/
lemma parseDigits_ok_iff (bound : Nat) (oerr : ParseIntError)
    (ds : List Char) :
    ∀ acc : Nat, acc ≤ bound →
      ((∃ v, parseDigits bound oerr ds acc = .ok v) ↔
        ((∀ c ∈ ds, c.isDigit = true) ∧ foldAcc acc ds ≤ bound)) := by
  induction ds with
  | nil =>
    intro acc hacc
    simp [parseDigits, foldAcc, hacc]
  | cons c cs ih =>
    intro acc hacc
    by_cases hc : c.isDigit = true
    · by_cases hover : bound < 10 * acc + digVal c
      · have hmono := le_foldAcc cs (10 * acc + digVal c)
        simp only [parseDigits, if_pos hc, if_pos hover, foldAcc_cons]
        constructor
        · rintro ⟨v, hv⟩; cases hv
        · rintro ⟨-, hle⟩; omega
      · have h2 : 10 * acc + digVal c ≤ bound := by omega
        simp only [parseDigits, if_pos hc, if_neg hover, foldAcc_cons]
        rw [ih (10 * acc + digVal c) h2]
        simp [List.forall_mem_cons, hc]
    · simp only [parseDigits, if_neg hc]
      constructor
      · rintro ⟨v, hv⟩; cases hv
      · rintro ⟨hall, -⟩
        exact absurd (hall c (List.mem_cons_self c cs)) hc

lemma exists_ok_okInt {f : Nat → Int} {e : Except ParseIntError Nat} :
    (∃ n, okInt f e = .ok n) ↔ (∃ v, e = .ok v) := by
  cases e with
  | error err =>
    simp only [okInt]
    constructor
    · rintro ⟨n, hn⟩; cases hn
    · rintro ⟨v, hv⟩; cases hv
  | ok v =>
    simp only [okInt]
    exact ⟨fun _ => ⟨v, rfl⟩, fun _ => ⟨f v, rfl⟩⟩

lemma cast_le_i32Max (v : Nat) : ((v : Int) ≤ 2 ^ 31 - 1) ↔ v ≤ i32Max := by
  have h1 : (2 : Int) ^ 31 - 1 = 2147483647 := by norm_num
  have h2 : i32Max = 2147483647 := rfl
  rw [h1, h2]
  omega

lemma neg_cast_ge_i32Min (v : Nat) :
    (-(2 ^ 31) ≤ -(v : Int)) ↔ v ≤ i32NegMag := by
  have h1 : (2 : Int) ^ 31 = 2147483648 := by norm_num
  have h2 : i32NegMag = 2147483648 := rfl
  rw [h1, h2]
  omega

lemma cast_lower_bound (v : Nat) : -(2 ^ 31) ≤ (v : Int) := by
  have h1 : (2 : Int) ^ 31 = 2147483648 := by norm_num
  rw [h1]
  omega

lemma neg_cast_upper_bound (v : Nat) : -(v : Int) ≤ 2 ^ 31 - 1 := by
  have h1 : (2 : Int) ^ 31 - 1 = 2147483647 := by norm_num
  rw [h1]
  omega

end CheatSheet

namespace CheatSheet

/-- Success of parseChars, characterized: the character list is an
optional sign followed by a nonempty run of decimal digits whose
denoted value lies in the i32 range. -/
lemma parseChars_ok_iff (l : List Char) :
    (∃ n, parseChars l = .ok n) ↔
      (∃ sgn ds : List Char,
        (sgn = [] ∨ sgn = ['+'] ∨ sgn = ['-']) ∧ ds ≠ [] ∧
        (∀ c ∈ ds, c.isDigit = true) ∧ l = sgn ++ ds ∧
        -(2 ^ 31) ≤ litVal sgn ds ∧ litVal sgn ds ≤ 2 ^ 31 - 1) := by
  cases l with
  | nil =>
    simp only [parseChars]
    constructor
    · rintro ⟨n, hn⟩; cases hn
    · rintro ⟨sgn, ds, hsgn, hne, -, heq, -⟩
      rcases List.append_eq_nil.mp heq.symm with ⟨-, rfl⟩
      exact (hne rfl).elim
  | cons c cs =>
    by_cases hp : c = '+'
    · subst hp
      cases cs with
      | nil =>
        constructor
        · rintro ⟨n, hn⟩
          simp [parseChars] at hn
        · rintro ⟨sgn, ds, hsgn, hne, hdig, heq, -⟩
          rcases hsgn with rfl | rfl | rfl
          · rw [List.nil_append] at heq
            have hmem : '+' ∈ ds := heq ▸ List.mem_cons_self '+' []
            have := hdig '+' hmem
            simp at this
          · rw [List.cons_append, List.nil_append] at heq
            exact (hne (List.cons_eq_cons.mp heq).2.symm).elim
          · rw [List.cons_append, List.nil_append] at heq
            exact absurd (List.cons_eq_cons.mp heq).1 (by decide)
      | cons d ds0 =>
        have hred : parseChars ('+' :: d :: ds0) =
            okInt (fun v => (v : Int))
              (parseDigits i32Max .posOverflow (d :: ds0) 0) := by
          simp [parseChars]
        rw [hred, exists_ok_okInt,
          parseDigits_ok_iff i32Max .posOverflow (d :: ds0) 0 (Nat.zero_le _)]
        constructor
        · rintro ⟨hdig, hle⟩
          refine ⟨['+'], d :: ds0, Or.inr (Or.inl rfl), by simp, hdig, rfl,
            ?_, ?_⟩
          · simp only [litVal, if_neg (by decide : ¬(['+'] = ['-']))]
            exact cast_lower_bound _
          · simp only [litVal, if_neg (by decide : ¬(['+'] = ['-']))]
            exact (cast_le_i32Max _).mpr hle
        · rintro ⟨sgn, ds, hsgn, hne, hdig, heq, -, hub⟩
          rcases hsgn with rfl | rfl | rfl
          · rw [List.nil_append] at heq
            have hmem : '+' ∈ ds := heq ▸ List.mem_cons_self '+' (d :: ds0)
            have := hdig '+' hmem
            simp at this
          · rw [List.cons_append, List.nil_append] at heq
            obtain ⟨-, hds⟩ := List.cons_eq_cons.mp heq
            subst hds
            refine ⟨hdig, ?_⟩
            rw [litVal, if_neg (by decide : ¬(['+'] = ['-']))] at hub
            exact (cast_le_i32Max _).mp hub
          · rw [List.cons_append, List.nil_append] at heq
            exact absurd (List.cons_eq_cons.mp heq).1 (by decide)
    · by_cases hm : c = '-'
      · subst hm
        cases cs with
        | nil =>
          constructor
          · rintro ⟨n, hn⟩
            simp [parseChars] at hn
          · rintro ⟨sgn, ds, hsgn, hne, hdig, heq, -⟩
            rcases hsgn with rfl | rfl | rfl
            · rw [List.nil_append] at heq
              have hmem : '-' ∈ ds := heq ▸ List.mem_cons_self '-' []
              have := hdig '-' hmem
              simp at this
            · rw [List.cons_append, List.nil_append] at heq
              exact absurd (List.cons_eq_cons.mp heq).1 (by decide)
            · rw [List.cons_append, List.nil_append] at heq
              exact (hne (List.cons_eq_cons.mp heq).2.symm).elim
        | cons d ds0 =>
          have hred : parseChars ('-' :: d :: ds0) =
              okInt (fun v => -(v : Int))
                (parseDigits i32NegMag .negOverflow (d :: ds0) 0) := by
            simp [parseChars]
          rw [hred, exists_ok_okInt,
            parseDigits_ok_iff i32NegMag .negOverflow (d :: ds0) 0
              (Nat.zero_le _)]
          constructor
          · rintro ⟨hdig, hle⟩
            refine ⟨['-'], d :: ds0, Or.inr (Or.inr rfl), by simp, hdig, rfl,
              ?_, ?_⟩
            · simp only [litVal, if_pos rfl]
              exact (neg_cast_ge_i32Min _).mpr hle
            · simp only [litVal, if_pos rfl]
              exact neg_cast_upper_bound _
          · rintro ⟨sgn, ds, hsgn, hne, hdig, heq, hlb, -⟩
            rcases hsgn with rfl | rfl | rfl
            · rw [List.nil_append] at heq
              have hmem : '-' ∈ ds := heq ▸ List.mem_cons_self '-' (d :: ds0)
              have := hdig '-' hmem
              simp at this
            · rw [List.cons_append, List.nil_append] at heq
              exact absurd (List.cons_eq_cons.mp heq).1 (by decide)
            · rw [List.cons_append, List.nil_append] at heq
              obtain ⟨-, hds⟩ := List.cons_eq_cons.mp heq
              subst hds
              refine ⟨hdig, ?_⟩
              rw [litVal, if_pos rfl] at hlb
              exact (neg_cast_ge_i32Min _).mp hlb
      · have hred : parseChars (c :: cs) =
            okInt (fun v => (v : Int))
              (parseDigits i32Max .posOverflow (c :: cs) 0) := by
          simp [parseChars, hp, hm]
        rw [hred, exists_ok_okInt,
          parseDigits_ok_iff i32Max .posOverflow (c :: cs) 0 (Nat.zero_le _)]
        constructor
        · rintro ⟨hdig, hle⟩
          refine ⟨[], c :: cs, Or.inl rfl, by simp, hdig, rfl, ?_, ?_⟩
          · simp only [litVal, if_neg (by decide : ¬(([] : List Char) = ['-']))]
            exact cast_lower_bound _
          · simp only [litVal, if_neg (by decide : ¬(([] : List Char) = ['-']))]
            exact (cast_le_i32Max _).mpr hle
        · rintro ⟨sgn, ds, hsgn, hne, hdig, heq, -, hub⟩
          rcases hsgn with rfl | rfl | rfl
          · rw [List.nil_append] at heq
            subst heq
            refine ⟨hdig, ?_⟩
            rw [litVal, if_neg (by decide : ¬(([] : List Char) = ['-']))] at hub
            exact (cast_le_i32Max _).mp hub
          · rw [List.cons_append, List.nil_append] at heq
            exact absurd (List.cons_eq_cons.mp heq).1 hp
          · rw [List.cons_append, List.nil_append] at heq
            exact absurd (List.cons_eq_cons.mp heq).1 hm

end CheatSheet

/-- Claim C3: parse_i32 succeeds exactly on the valid base-10 integer
literals representable in the 32-bit signed width; in particular
parsing 123 succeeds with the value 123 and parsing abc fails. -/
theorem claim_C3_parse_i32 :
    (∀ s : String,
      (∃ n, CheatSheet.parse_i32 s = .ok n) ↔ CheatSheet.validI32Literal s) ∧
    CheatSheet.parse_i32 "123" = .ok 123 ∧
    (∃ e, CheatSheet.parse_i32 "abc" = .error e) :=
  ⟨fun s => CheatSheet.parseChars_ok_iff s.data, rfl,
    ⟨CheatSheet.ParseIntError.invalidDigit, rfl⟩⟩
